import Mathlib

/-!
Shallow embedding of the keydisp server core (src/server/keydisp/src/main.rs):
the UTF-16 reassembly buffer `BufferedUtf16Iterator`, the capture-dispatch
logic of the closure passed to `Hook::run_forever` in `main`, and the
broadcast fan-out loop that drains the character channel.

Representation choices: `u16` code units and emitted characters are `Nat`
code points (the Rust code builds `char`s with `from_u32_unchecked`, so the
scalar value is all that matters); window handles (`HWND`) are opaque and
modelled as `Nat`; the `VecDeque<u16>` FIFO is a `List Nat` whose head is the
front of the deque.
-/

namespace Keydisp

/-- `KeyState` from main.rs. -/
inductive KeyState
  | Pressed
  | Released
deriving DecidableEq, Repr

/-- The constructors of the external `scancode::Scancode` enumeration that
keydisp mentions (in `keycode_to_key`, `modifier_index`, `get_send_char`). -/
inductive Scancode
  | F1 | F2 | F3 | F4 | F5 | F6 | F7 | F8 | F9 | F10 | F11 | F12
  | Num0 | Num1 | Num2 | Num3 | Num4 | Num5 | Num6 | Num7 | Num8 | Num9
  | A | B | C | D | E | F | G | H | I | J | K | L | M
  | N | O | P | Q | R | S | T | U | V | W | X | Y | Z
  | Space | LeftControl | RightControl | LeftShift | RightShift
  | LeftAlt | RightAlt | CapsLock
  | Enter | Backspace | Tab | Escape | PageUp | PageDown | End | Home
  | Left | Right | Up | Down | Insert | Delete
  | Semicolon | Equals | Comma | Minus | Period | Slash | Grave
  | LeftBracket | Backslash | RightBracket | Apostrophe
deriving DecidableEq, Repr

/-- `Event` from main.rs: a key transition or one raw UTF-16 code unit. -/
inductive Event
  | Key (scancode : Scancode) (key_state : KeyState)
  | Char (c : Nat)
deriving DecidableEq, Repr

/-- `DecodeUtf16Error` from main.rs: the offending code unit. -/
structure DecodeUtf16Error where
  code : Nat
deriving DecidableEq, Repr

/-- `BufferedUtf16Iterator` from main.rs: a FIFO of not-yet-decoded code
units plus at most one held-over unit from a previous decode attempt. -/
structure BufferedUtf16Iterator where
  buffer : List Nat
  decoding_buf : Option Nat
deriving DecidableEq, Repr

instance decEqExcept {ε α : Type} [DecidableEq ε] [DecidableEq α] :
    DecidableEq (Except ε α) := fun a b =>
  match a, b with
  | Except.ok x, Except.ok y =>
    if h : x = y then isTrue (by rw [h]) else isFalse (by intro hc; cases hc; exact h rfl)
  | Except.error x, Except.error y =>
    if h : x = y then isTrue (by rw [h]) else isFalse (by intro hc; cases hc; exact h rfl)
  | Except.ok _, Except.error _ => isFalse (by intro hc; cases hc)
  | Except.error _, Except.ok _ => isFalse (by intro hc; cases hc)

/-- `BufferedUtf16Iterator::new`. -/
def BufferedUtf16Iterator.new : BufferedUtf16Iterator :=
  { buffer := [], decoding_buf := none }

/-- `BufferedUtf16Iterator::push_u16`: `self.buffer.push_back(item)`. -/
def BufferedUtf16Iterator.push_u16 (self : BufferedUtf16Iterator) (item : Nat) :
    BufferedUtf16Iterator :=
  { self with buffer := self.buffer ++ [item] }

/-- The body of `<BufferedUtf16Iterator as Iterator>::next` after the first
unit `u` has been dequeued (from `decoding_buf` or from the front of
`buffer`); `st` is the residual state at that point (`decoding_buf = none`).
Mirrors main.rs lines 190-212. -/
def BufferedUtf16Iterator.decodeUnit (u : Nat) (st : BufferedUtf16Iterator) :
    Except DecodeUtf16Error Nat × BufferedUtf16Iterator :=
  if u < 0xD800 ∨ 0xDFFF < u then
    -- not a surrogate
    (Except.ok u, st)
  else if 0xDC00 ≤ u then
    -- a trailing surrogate
    (Except.error { code := u }, st)
  else
    match st.buffer with
    | [] =>
      -- eof
      (Except.error { code := u }, st)
    | u2 :: rest =>
      if u2 < 0xDC00 ∨ 0xDFFF < u2 then
        -- not a trailing surrogate: rewind to redecode u2 next time
        (Except.error { code := u }, { st with buffer := rest, decoding_buf := some u2 })
      else
        -- all ok, decode the pair
        (Except.ok ((((u - 0xD800) <<< 10) ||| (u2 - 0xDC00)) + 0x10000),
         { st with buffer := rest })

/-- `<BufferedUtf16Iterator as Iterator>::next`: take the held-over unit if
present, else pop the front of the FIFO (`None` when empty), then decode. -/
def BufferedUtf16Iterator.next :
    BufferedUtf16Iterator → Option (Except DecodeUtf16Error Nat × BufferedUtf16Iterator)
  | { buffer := buf, decoding_buf := some b } =>
    some (BufferedUtf16Iterator.decodeUnit b { buffer := buf, decoding_buf := none })
  | { buffer := [], decoding_buf := none } => none
  | { buffer := u :: rest, decoding_buf := none } =>
    some (BufferedUtf16Iterator.decodeUnit u { buffer := rest, decoding_buf := none })

/-- Number of code units held by the buffer, the held-over unit included. -/
def BufferedUtf16Iterator.size (st : BufferedUtf16Iterator) : Nat :=
  st.buffer.length + (match st.decoding_buf with | some _ => 1 | none => 0)

/-- Fuelled drain loop: repeatedly call `next` until it yields `None`,
collecting the results in order and returning the final state. -/
def drainN : Nat → BufferedUtf16Iterator →
    List (Except DecodeUtf16Error Nat) × BufferedUtf16Iterator
  | 0, st => ([], st)
  | fuel + 1, st =>
    match st.next with
    | none => ([], st)
    | some (r, st1) =>
      let p := drainN fuel st1
      (r :: p.1, p.2)

/-- The `while let Some(result) = char_iter.next()` drain loop of `main`:
each successful `next` consumes at least one unit, so `size` many iterations
always reach the empty state. -/
def drainFull (st : BufferedUtf16Iterator) :
    List (Except DecodeUtf16Error Nat) × BufferedUtf16Iterator :=
  drainN st.size st

/-- `SET_INPUT_WINDOW_KEY` from main.rs. -/
def SET_INPUT_WINDOW_KEY : Scancode := Scancode.F10

/-- `modifier_index` from main.rs: the shared `ModifierSlot` of a scancode
(`0` Shift, `1` Control, `2` Alt, `3` CapsLock). -/
def modifier_index : Scancode → Option (Fin 4)
  | Scancode.LeftShift => some 0
  | Scancode.RightShift => some 0
  | Scancode.LeftControl => some 1
  | Scancode.RightControl => some 1
  | Scancode.LeftAlt => some 2
  | Scancode.RightAlt => some 2
  | Scancode.CapsLock => some 3
  | _ => none

/-- `get_send_char` from main.rs, with each glyph as its code point. -/
def get_send_char : Scancode → Option Nat
  | Scancode.LeftShift => some 0x21E7 -- ⇧
  | Scancode.RightShift => some 0x21E7 -- ⇧
  | Scancode.LeftControl => some 0x2303 -- ⌃
  | Scancode.RightControl => some 0x2303 -- ⌃
  | Scancode.LeftAlt => some 0x2387 -- ⎇
  | Scancode.RightAlt => some 0x2387 -- ⎇
  | Scancode.CapsLock => some 0x21EA -- ⇪
  | Scancode.Escape => some 0x238B -- ⎋
  | Scancode.Tab => some 0x21E5 -- ⇥
  | Scancode.Space => some 0x2423 -- ␣
  | Scancode.Enter => some 0x23CE -- ⏎
  | Scancode.Backspace => some 0x232B -- ⌫
  | Scancode.Delete => some 0x2326 -- ⌦
  | Scancode.Home => some 0x21F1 -- ⇱
  | Scancode.End => some 0x21F2 -- ⇲
  | Scancode.PageUp => some 0x21DE -- ⇞
  | Scancode.PageDown => some 0x21DF -- ⇟
  | Scancode.Up => some 0x2191 -- ↑
  | Scancode.Down => some 0x2193 -- ↓
  | Scancode.Left => some 0x2190 -- ←
  | Scancode.Right => some 0x2192 -- →
  | _ => none

/-- `std::char::REPLACEMENT_CHARACTER` as a code point. -/
def REPLACEMENT_CHARACTER : Nat := 0xFFFD

/-- `Result::unwrap_or` specialised to the decode result type. -/
def unwrap_or (r : Except DecodeUtf16Error Nat) (default : Nat) : Nat :=
  match r with
  | Except.ok c => c
  | Except.error _ => default

/-- Rust `char::is_control` on code points: the Unicode Cc category,
U+0000..U+001F and U+007F..U+009F. -/
def is_control (c : Nat) : Bool :=
  decide (c ≤ 0x1F) || (decide (0x7F ≤ c) && decide (c ≤ 0x9F))

/-- The code points with the Unicode White_Space property. -/
def whitespaceCodes : List Nat :=
  [0x09, 0x0A, 0x0B, 0x0C, 0x0D, 0x20, 0x85, 0xA0, 0x1680,
   0x2000, 0x2001, 0x2002, 0x2003, 0x2004, 0x2005, 0x2006, 0x2007,
   0x2008, 0x2009, 0x200A, 0x2028, 0x2029, 0x202F, 0x205F, 0x3000]

/-- Rust `char::is_whitespace` on code points. -/
def is_whitespace (c : Nat) : Bool :=
  whitespaceCodes.contains c

/-- The mutable state captured by the closure `main` passes to
`Hook::run_forever`: `char_iter`, `input_window` (the capture target) and
`modifier_state` (`[KeyState; 4]`, slots Shift/Ctrl/Alt/CapsLock). -/
structure DispatchState where
  char_iter : BufferedUtf16Iterator
  input_window : Option Nat
  modifier_state : Fin 4 → KeyState

/-- The characters a drained result list contributes to the channel:
`result.unwrap_or(REPLACEMENT_CHARACTER)` then the
`!c.is_control() && !c.is_whitespace()` filter of main.rs lines 332-336. -/
def sentChars (results : List (Except DecodeUtf16Error Nat)) : List Nat :=
  (results.map (fun r => unwrap_or r REPLACEMENT_CHARACTER)).filter
    (fun ch => !(is_control ch) && !(is_whitespace ch))

/-- The value `input_window` holds after the hotkey check at the top of the
closure (main.rs lines 316-324). -/
def updatedWindow (st : DispatchState) (fg_window : Nat) (event : Event) : Option Nat :=
  match event with
  | Event.Key scancode key_state =>
    if scancode = SET_INPUT_WINDOW_KEY ∧ key_state = KeyState.Pressed then
      some fg_window
    else st.input_window
  | Event.Char _ => st.input_window

/-- One invocation of the closure `main` passes to `Hook::run_forever`
(main.rs lines 313-362): returns the updated state and the characters sent
to the channel by this event, in order. -/
def onEvent (st : DispatchState) (fg_window : Nat) (event : Event) :
    DispatchState × List Nat :=
  let input_window := updatedWindow st fg_window event
  if some fg_window = input_window then
    match event with
    | Event.Char c =>
      let it := st.char_iter.push_u16 c
      ({ char_iter := (drainFull it).2, input_window := input_window,
         modifier_state := st.modifier_state },
       sentChars (drainFull it).1)
    | Event.Key scancode key_state =>
      match modifier_index scancode with
      | some idx =>
        let prev := st.modifier_state idx
        ({ char_iter := st.char_iter, input_window := input_window,
           modifier_state := Function.update st.modifier_state idx key_state },
         (if prev = KeyState.Released then get_send_char scancode else none).toList)
      | none =>
        ({ char_iter := st.char_iter, input_window := input_window,
           modifier_state := st.modifier_state },
         (if key_state = KeyState.Pressed then get_send_char scancode else none).toList)
  else
    ({ st with input_window := input_window }, [])

/-- A viewer sink: its identity and the characters on which a
`write_message` to it fails.  Models a `tungstenite::WebSocket` held in the
shared client list. -/
structure ViewerSink where
  id : Nat
  failsOn : List Nat
deriving DecidableEq, Repr

/-- Whether `client.write_message(Text(c))` succeeds for this sink. -/
def write_message (s : ViewerSink) (c : Nat) : Bool :=
  !(s.failsOn.contains c)

/-- The `drain_filter` broadcast step of main.rs lines 283-288 for one
character: every held sink gets exactly one write attempt; a sink whose
write fails is removed, a sink whose write succeeds is kept.  Returns the
surviving sinks (in order) and the log of write attempts
`(sink id, succeeded)` in order. -/
def deliver : List ViewerSink → Nat → List ViewerSink × List (Nat × Bool)
  | [], _ => ([], [])
  | s :: rest, c =>
    let p := deliver rest c
    if write_message s c then
      (s :: p.1, (s.id, true) :: p.2)
    else
      (p.1, (s.id, false) :: p.2)

/-! ### Helper lemmas -/

lemma next_cons (u : Nat) (rest : List Nat) :
    BufferedUtf16Iterator.next ⟨u :: rest, none⟩ =
      some (BufferedUtf16Iterator.decodeUnit u ⟨rest, none⟩) := rfl

lemma next_held (buf : List Nat) (b : Nat) :
    BufferedUtf16Iterator.next ⟨buf, some b⟩ =
      some (BufferedUtf16Iterator.decodeUnit b ⟨buf, none⟩) := by
  cases buf <;> rfl

lemma decodeUnit_direct (u : Nat) (st : BufferedUtf16Iterator)
    (h : u < 0xD800 ∨ 0xDFFF < u) :
    BufferedUtf16Iterator.decodeUnit u st = (Except.ok u, st) := by
  simp [BufferedUtf16Iterator.decodeUnit, h]

lemma decodeUnit_trailing (u : Nat) (st : BufferedUtf16Iterator)
    (h1 : 0xDC00 ≤ u) (h2 : u ≤ 0xDFFF) :
    BufferedUtf16Iterator.decodeUnit u st = (Except.error ⟨u⟩, st) := by
  have ha : ¬(u < 0xD800 ∨ 0xDFFF < u) := by omega
  simp [BufferedUtf16Iterator.decodeUnit, ha, h1]

lemma decodeUnit_lead_eof (u : Nat) (d : Option Nat)
    (h1 : 0xD800 ≤ u) (h2 : u ≤ 0xDBFF) :
    BufferedUtf16Iterator.decodeUnit u ⟨[], d⟩ = (Except.error ⟨u⟩, ⟨[], d⟩) := by
  have ha : ¬(u < 0xD800 ∨ 0xDFFF < u) := by omega
  have hb : ¬(0xDC00 ≤ u) := by omega
  simp [BufferedUtf16Iterator.decodeUnit, ha, hb]

lemma decodeUnit_lead_invalid (u u2 : Nat) (rest : List Nat) (d : Option Nat)
    (h1 : 0xD800 ≤ u) (h2 : u ≤ 0xDBFF) (h3 : ¬(0xDC00 ≤ u2 ∧ u2 ≤ 0xDFFF)) :
    BufferedUtf16Iterator.decodeUnit u ⟨u2 :: rest, d⟩ =
      (Except.error ⟨u⟩, ⟨rest, some u2⟩) := by
  have ha : ¬(u < 0xD800 ∨ 0xDFFF < u) := by omega
  have hb : ¬(0xDC00 ≤ u) := by omega
  have hc : u2 < 0xDC00 ∨ 0xDFFF < u2 := by omega
  simp [BufferedUtf16Iterator.decodeUnit, ha, hb, hc]

lemma decodeUnit_pair (u u2 : Nat) (rest : List Nat) (d : Option Nat)
    (h1 : 0xD800 ≤ u) (h2 : u ≤ 0xDBFF) (h3 : 0xDC00 ≤ u2) (h4 : u2 ≤ 0xDFFF) :
    BufferedUtf16Iterator.decodeUnit u ⟨u2 :: rest, d⟩ =
      (Except.ok ((((u - 0xD800) <<< 10) ||| (u2 - 0xDC00)) + 0x10000), ⟨rest, d⟩) := by
  have ha : ¬(u < 0xD800 ∨ 0xDFFF < u) := by omega
  have hb : ¬(0xDC00 ≤ u) := by omega
  have hc : ¬(u2 < 0xDC00 ∨ 0xDFFF < u2) := by omega
  simp [BufferedUtf16Iterator.decodeUnit, ha, hb, hc]

/-! ### Claim theorems -/

/-- C4: `next` returns `None` exactly when the buffer (held-over unit
included) is empty; a dequeued non-surrogate unit decodes to itself; a
dequeued trailing surrogate with no preceding leading surrogate is invalid
standalone; a leading surrogate followed by a valid trailing surrogate
combines per the standard formula into a scalar ≥ 0x10000; a leading
surrogate with an otherwise empty buffer yields an error with its code. -/
theorem c4_next_case_analysis :
    (∀ st : BufferedUtf16Iterator,
      st.next = none ↔ st.buffer = [] ∧ st.decoding_buf = none) ∧
    (∀ u rest, u < 0xD800 ∨ 0xDFFF < u →
      BufferedUtf16Iterator.next ⟨u :: rest, none⟩ =
        some (Except.ok u, ⟨rest, none⟩)) ∧
    (∀ u rest, 0xDC00 ≤ u → u ≤ 0xDFFF →
      BufferedUtf16Iterator.next ⟨u :: rest, none⟩ =
        some (Except.error ⟨u⟩, ⟨rest, none⟩)) ∧
    (∀ u1 u2 rest, 0xD800 ≤ u1 → u1 ≤ 0xDBFF → 0xDC00 ≤ u2 → u2 ≤ 0xDFFF →
      BufferedUtf16Iterator.next ⟨u1 :: u2 :: rest, none⟩ =
        some (Except.ok ((((u1 - 0xD800) <<< 10) ||| (u2 - 0xDC00)) + 0x10000),
              ⟨rest, none⟩) ∧
      0x10000 ≤ (((u1 - 0xD800) <<< 10) ||| (u2 - 0xDC00)) + 0x10000) ∧
    (∀ u, 0xD800 ≤ u → u ≤ 0xDBFF →
      BufferedUtf16Iterator.next ⟨[u], none⟩ =
        some (Except.error ⟨u⟩, ⟨[], none⟩)) := by
  refine ⟨?_, ?_, ?_, ?_, ?_⟩
  · rintro ⟨buf, db⟩
    cases db <;> cases buf <;>
      simp [BufferedUtf16Iterator.next]
  · intro u rest h
    rw [next_cons, decodeUnit_direct u _ h]
  · intro u rest h1 h2
    rw [next_cons, decodeUnit_trailing u _ h1 h2]
  · intro u1 u2 rest h1 h2 h3 h4
    constructor
    · rw [next_cons, decodeUnit_pair u1 u2 rest none h1 h2 h3 h4]
    · omega
  · intro u h1 h2
    rw [next_cons, decodeUnit_lead_eof u none h1 h2]

/-- Witness for C4 at concrete inputs. -/
theorem c4_witness :
    BufferedUtf16Iterator.next ⟨[0x41, 0x42], none⟩ =
      some (Except.ok 0x41, ⟨[0x42], none⟩) ∧
    BufferedUtf16Iterator.next ⟨[0xDC05], none⟩ =
      some (Except.error ⟨0xDC05⟩, ⟨[], none⟩) ∧
    BufferedUtf16Iterator.next ⟨[0xD800, 0xDC00], none⟩ =
      some (Except.ok ((((0xD800 - 0xD800) <<< 10) ||| (0xDC00 - 0xDC00)) + 0x10000),
            ⟨[], none⟩) ∧
    BufferedUtf16Iterator.next ⟨[0xD801], none⟩ =
      some (Except.error ⟨0xD801⟩, ⟨[], none⟩) :=
  ⟨c4_next_case_analysis.2.1 0x41 [0x42] (by omega),
   c4_next_case_analysis.2.2.1 0xDC05 [] (by omega) (by omega),
   (c4_next_case_analysis.2.2.2.1 0xD800 0xDC00 [] (by omega) (by omega)
     (by omega) (by omega)).1,
   c4_next_case_analysis.2.2.2.2 0xD801 (by omega) (by omega)⟩

/-- C3: when `next` dequeues a leading surrogate and the following unit is
not a trailing surrogate, it returns exactly one invalid result tagged with
the leading unit's code, holds the following unit instead of consuming it,
and the next call examines that held unit first. -/
theorem c3_rewind_on_invalid_pair (u1 u2 : Nat) (rest : List Nat)
    (h1 : 0xD800 ≤ u1) (h2 : u1 ≤ 0xDBFF)
    (h3 : ¬(0xDC00 ≤ u2 ∧ u2 ≤ 0xDFFF)) :
    BufferedUtf16Iterator.next ⟨u1 :: u2 :: rest, none⟩ =
      some (Except.error ⟨u1⟩, ⟨rest, some u2⟩) ∧
    BufferedUtf16Iterator.next ⟨u2 :: rest, some u1⟩ =
      some (Except.error ⟨u1⟩, ⟨rest, some u2⟩) ∧
    BufferedUtf16Iterator.next ⟨rest, some u2⟩ =
      some (BufferedUtf16Iterator.decodeUnit u2 ⟨rest, none⟩) := by
  refine ⟨?_, ?_, ?_⟩
  · rw [next_cons, decodeUnit_lead_invalid u1 u2 rest none h1 h2 h3]
  · rw [next_held, decodeUnit_lead_invalid u1 u2 rest none h1 h2 h3]
  · exact next_held rest u2

/-- Witness for C3: leading surrogate 0xD800 followed by the ordinary
unit 0x41. -/
theorem c3_witness :
    BufferedUtf16Iterator.next ⟨[0xD800, 0x41], none⟩ =
      some (Except.error ⟨0xD800⟩, ⟨[], some 0x41⟩) ∧
    BufferedUtf16Iterator.next ⟨[], some 0x41⟩ =
      some (BufferedUtf16Iterator.decodeUnit 0x41 ⟨[], none⟩) :=
  ⟨(c3_rewind_on_invalid_pair 0xD800 0x41 [] (by omega) (by omega) (by omega)).1,
   (c3_rewind_on_invalid_pair 0xD800 0x41 [] (by omega) (by omega) (by omega)).2.2⟩

/-- A valid UTF-16 surrogate pair: leading then trailing. -/
def validPair (p : Nat × Nat) : Prop :=
  0xD800 ≤ p.1 ∧ p.1 ≤ 0xDBFF ∧ 0xDC00 ≤ p.2 ∧ p.2 ≤ 0xDFFF

instance (p : Nat × Nat) : Decidable (validPair p) := by
  unfold validPair; infer_instance

/-- The scalar value a valid surrogate pair decodes to (main.rs line 210). -/
def decodePair (p : Nat × Nat) : Nat :=
  (((p.1 - 0xD800) <<< 10) ||| (p.2 - 0xDC00)) + 0x10000

/-- The code-unit sequence of a list of surrogate pairs, in order. -/
def flattenPairs : List (Nat × Nat) → List Nat
  | [] => []
  | (a, b) :: ps => a :: b :: flattenPairs ps

/-- Push a whole list of code units, one `push_u16` per unit, in order. -/
def pushAll (st : BufferedUtf16Iterator) (us : List Nat) : BufferedUtf16Iterator :=
  us.foldl BufferedUtf16Iterator.push_u16 st

lemma pushAll_state (us buf : List Nat) (d : Option Nat) :
    pushAll ⟨buf, d⟩ us = ⟨buf ++ us, d⟩ := by
  induction us generalizing buf with
  | nil => simp [pushAll]
  | cons u us ih =>
    show pushAll (BufferedUtf16Iterator.push_u16 ⟨buf, d⟩ u) us = _
    rw [show BufferedUtf16Iterator.push_u16 ⟨buf, d⟩ u = ⟨buf ++ [u], d⟩ from rfl, ih]
    simp

lemma flattenPairs_length (ps : List (Nat × Nat)) :
    (flattenPairs ps).length = 2 * ps.length := by
  induction ps with
  | nil => rfl
  | cons p ps ih =>
    obtain ⟨a, b⟩ := p
    simp [flattenPairs, ih]
    omega

lemma drainN_pairs : ∀ (ps : List (Nat × Nat)) (fuel : Nat),
    (∀ p ∈ ps, validPair p) → 2 * ps.length ≤ fuel →
    drainN fuel ⟨flattenPairs ps, none⟩ =
      (ps.map (fun p => Except.ok (decodePair p)), ⟨[], none⟩)
  | [], 0, _, _ => rfl
  | [], _ + 1, _, _ => rfl
  | (a, b) :: ps, 0, _, hf => by
    simp [List.length_cons] at hf
  | (a, b) :: ps, fuel + 1, h, hf => by
    obtain ⟨h1, h2, h3, h4⟩ := h (a, b) (List.mem_cons_self _ _)
    have hstep : BufferedUtf16Iterator.next ⟨flattenPairs ((a, b) :: ps), none⟩ =
        some (Except.ok (decodePair (a, b)), ⟨flattenPairs ps, none⟩) := by
      show BufferedUtf16Iterator.next ⟨a :: b :: flattenPairs ps, none⟩ = _
      rw [next_cons, decodeUnit_pair a b (flattenPairs ps) none h1 h2 h3 h4]
      rfl
    have hrec := drainN_pairs ps fuel
      (fun q hq => h q (List.mem_cons_of_mem _ hq))
      (by simp [List.length_cons] at hf; omega)
    simp only [drainN, hstep, hrec]
    simp

/-- C2 counterexample: the valid pair (0xD800, 0xDC00) split across two
`push_u16` calls with a full drain between them yields two invalid results,
not the scalar 0x10000: draining right after pushing the leading unit
consumes it and reports it as an error (main.rs lines 197-200), and the
trailing unit pushed afterwards is then invalid standalone. -/
theorem c2_counterexample :
    validPair (0xD800, 0xDC00) ∧
    (drainFull (BufferedUtf16Iterator.new.push_u16 0xD800)).1 =
      [Except.error ⟨0xD800⟩] ∧
    (drainFull ((drainFull (BufferedUtf16Iterator.new.push_u16 0xD800)).2.push_u16
        0xDC00)).1 = [Except.error ⟨0xDC00⟩] := by
  decide

/-- C2 amended: for every sequence of valid surrogate pairs whose code units
are pushed unit-by-unit (in any batching) *without draining between the two
units of a pair*, draining reproduces exactly the original scalar values, in
order, with no errors; splitting a pair across a drain instead yields
errors (see the counterexample). -/
theorem c2_amended_round_trip (ps : List (Nat × Nat))
    (h : ∀ p ∈ ps, validPair p) :
    drainFull (pushAll BufferedUtf16Iterator.new (flattenPairs ps)) =
      (ps.map (fun p => Except.ok (decodePair p)), BufferedUtf16Iterator.new) := by
  rw [show pushAll BufferedUtf16Iterator.new (flattenPairs ps) =
        ⟨flattenPairs ps, none⟩ by
      rw [show BufferedUtf16Iterator.new = ⟨[], none⟩ from rfl, pushAll_state]
      simp]
  unfold drainFull
  have hsize : BufferedUtf16Iterator.size ⟨flattenPairs ps, none⟩ = 2 * ps.length := by
    simp [BufferedUtf16Iterator.size, flattenPairs_length]
  rw [hsize]
  exact drainN_pairs ps (2 * ps.length) h (le_refl _)

/-- Witness for C2 amended: the pairs U+10000 and U+10FFFF pushed in one
batch decode to exactly those scalars. -/
theorem c2_amended_witness :
    (∀ p ∈ [(0xD800, 0xDC00), (0xDBFF, 0xDFFF)], validPair p) ∧
    drainFull (pushAll BufferedUtf16Iterator.new
        (flattenPairs [(0xD800, 0xDC00), (0xDBFF, 0xDFFF)])) =
      ([(0xD800, 0xDC00), (0xDBFF, 0xDFFF)].map (fun p => Except.ok (decodePair p)),
       BufferedUtf16Iterator.new) :=
  ⟨by decide, c2_amended_round_trip [(0xD800, 0xDC00), (0xDBFF, 0xDFFF)] (by decide)⟩

/-! ### Dispatcher lemmas -/

lemma onEvent_input_window (st : DispatchState) (fg : Nat) (event : Event) :
    (onEvent st fg event).1.input_window = updatedWindow st fg event := by
  simp only [onEvent]
  split
  · cases event with
    | Char c => rfl
    | Key sc ks => cases h : modifier_index sc <;> simp [h]
  · rfl

lemma modifier_index_ne_hotkey (sc : Scancode) (idx : Fin 4)
    (h : modifier_index sc = some idx) : sc ≠ SET_INPUT_WINDOW_KEY := by
  intro hc
  subst hc
  rw [show modifier_index SET_INPUT_WINDOW_KEY = none from rfl] at h
  exact Option.noConfusion h

lemma onEvent_modifier (st : DispatchState) (fg : Nat) (sc : Scancode)
    (idx : Fin 4) (ks : KeyState)
    (hidx : modifier_index sc = some idx)
    (hgate : some fg = st.input_window) :
    onEvent st fg (Event.Key sc ks) =
      ({ char_iter := st.char_iter, input_window := st.input_window,
         modifier_state := Function.update st.modifier_state idx ks },
       (if st.modifier_state idx = KeyState.Released
        then get_send_char sc else none).toList) := by
  have hne : sc ≠ SET_INPUT_WINDOW_KEY := modifier_index_ne_hotkey sc idx hidx
  simp [onEvent, updatedWindow, hne, hidx, ← hgate]

lemma onEvent_char (st : DispatchState) (fg c : Nat)
    (hgate : some fg = st.input_window) :
    onEvent st fg (Event.Char c) =
      ({ char_iter := (drainFull (st.char_iter.push_u16 c)).2,
         input_window := st.input_window,
         modifier_state := st.modifier_state },
       sentChars (drainFull (st.char_iter.push_u16 c)).1) := by
  simp [onEvent, updatedWindow, sentChars, ← hgate]

/-- C1: an event processed while the foreground window differs from the
capture target (as it stands after this event's hotkey check, so also right
after a hotkey press that designated a different window) emits nothing,
whatever the event type. -/
theorem c1_gating_no_output (st : DispatchState) (fg : Nat) (event : Event)
    (h : some fg ≠ (onEvent st fg event).1.input_window) :
    (onEvent st fg event).2 = [] := by
  rw [onEvent_input_window] at h
  simp only [onEvent]
  rw [if_neg h]

/-- Witness for C1: a CharEvent while a different window is the target. -/
theorem c1_witness :
    some 7 ≠ (onEvent ⟨⟨[], none⟩, some 5, fun _ => KeyState.Released⟩ 7
        (Event.Char 0x41)).1.input_window ∧
    (onEvent ⟨⟨[], none⟩, some 5, fun _ => KeyState.Released⟩ 7
        (Event.Char 0x41)).2 = [] :=
  ⟨by decide, c1_gating_no_output _ 7 (Event.Char 0x41) (by decide)⟩

/-- C6: a Pressed KeyEvent for the configured hotkey sets the capture target
to the current foreground window unconditionally, and no event ever clears a
target once set (it is only ever overwritten). -/
theorem c6_hotkey_always_wins (st : DispatchState) (fg : Nat) :
    (onEvent st fg (Event.Key SET_INPUT_WINDOW_KEY KeyState.Pressed)).1.input_window
      = some fg ∧
    (∀ event : Event, (st.input_window).isSome = true →
      ((onEvent st fg event).1.input_window).isSome = true) := by
  constructor
  · rw [onEvent_input_window]
    simp [updatedWindow]
  · intro event hsome
    rw [onEvent_input_window]
    cases event with
    | Char c => simpa [updatedWindow] using hsome
    | Key sc ks =>
      by_cases hc : sc = SET_INPUT_WINDOW_KEY ∧ ks = KeyState.Pressed
      · simp [updatedWindow, hc]
      · simpa [updatedWindow, hc] using hsome

/-- Witness for C6: target `some 3` is overwritten to the new foreground
window 9, and a CharEvent leaves some target in place. -/
theorem c6_witness :
    (onEvent ⟨⟨[], none⟩, some 3, fun _ => KeyState.Released⟩ 9
        (Event.Key SET_INPUT_WINDOW_KEY KeyState.Pressed)).1.input_window = some 9 ∧
    ((⟨⟨[], none⟩, some 3, fun _ => KeyState.Released⟩ :
        DispatchState).input_window).isSome = true ∧
    ((onEvent ⟨⟨[], none⟩, some 3, fun _ => KeyState.Released⟩ 9
        (Event.Char 1)).1.input_window).isSome = true :=
  ⟨(c6_hotkey_always_wins _ 9).1, by decide,
   (c6_hotkey_always_wins _ 9).2 (Event.Char 1) (by decide)⟩

/-- C5: modifier glyphs are edge-triggered on the shared slot: from a state
with the Shift slot Released, Shift-down emits the Shift glyph; any modifier
key-down whose slot is already Pressed (right-Shift while left-Shift is
held included, both map to slot 0) emits nothing; the Shift-up that follows
the press emits nothing. -/
theorem c5_modifier_edge_trigger (st : DispatchState) (fg : Nat)
    (h0 : st.modifier_state 0 = KeyState.Released)
    (hgate : some fg = st.input_window) :
    (onEvent st fg (Event.Key Scancode.LeftShift KeyState.Pressed)).2 = [0x21E7] ∧
    (onEvent (onEvent st fg (Event.Key Scancode.LeftShift KeyState.Pressed)).1 fg
        (Event.Key Scancode.RightShift KeyState.Pressed)).2 = [] ∧
    (onEvent (onEvent st fg (Event.Key Scancode.LeftShift KeyState.Pressed)).1 fg
        (Event.Key Scancode.LeftShift KeyState.Released)).2 = [] ∧
    (∀ (st2 : DispatchState) (sc : Scancode) (idx : Fin 4),
      modifier_index sc = some idx →
      st2.modifier_state idx = KeyState.Pressed →
      some fg = st2.input_window →
      (onEvent st2 fg (Event.Key sc KeyState.Pressed)).2 = []) := by
  have hL : modifier_index Scancode.LeftShift = some 0 := rfl
  have hR : modifier_index Scancode.RightShift = some 0 := rfl
  have general : ∀ (st2 : DispatchState) (sc : Scancode) (idx : Fin 4),
      modifier_index sc = some idx →
      st2.modifier_state idx = KeyState.Pressed →
      some fg = st2.input_window →
      (onEvent st2 fg (Event.Key sc KeyState.Pressed)).2 = [] := by
    intro st2 sc idx hidx hprev hg
    rw [onEvent_modifier st2 fg sc idx KeyState.Pressed hidx hg]
    simp [hprev]
  have e1 := onEvent_modifier st fg Scancode.LeftShift 0 KeyState.Pressed hL hgate
  have hms : (onEvent st fg
      (Event.Key Scancode.LeftShift KeyState.Pressed)).1.modifier_state 0 =
      KeyState.Pressed := by
    rw [e1]
    simp
  have hw : some fg = (onEvent st fg
      (Event.Key Scancode.LeftShift KeyState.Pressed)).1.input_window := by
    rw [e1]
    exact hgate
  refine ⟨?_, general _ Scancode.RightShift 0 hR hms hw, ?_, general⟩
  · rw [e1]
    simp [h0, get_send_char]
  · rw [onEvent_modifier _ fg Scancode.LeftShift 0 KeyState.Released hL hw]
    simp [hms]

/-- Witness for C5 at a concrete all-Released gated-in state. -/
theorem c5_witness :
    (onEvent ⟨⟨[], none⟩, some 0, fun _ => KeyState.Released⟩ 0
        (Event.Key Scancode.LeftShift KeyState.Pressed)).2 = [0x21E7] ∧
    (onEvent (onEvent ⟨⟨[], none⟩, some 0, fun _ => KeyState.Released⟩ 0
          (Event.Key Scancode.LeftShift KeyState.Pressed)).1 0
        (Event.Key Scancode.RightShift KeyState.Pressed)).2 = [] ∧
    (onEvent (onEvent ⟨⟨[], none⟩, some 0, fun _ => KeyState.Released⟩ 0
          (Event.Key Scancode.LeftShift KeyState.Pressed)).1 0
        (Event.Key Scancode.LeftShift KeyState.Released)).2 = [] :=
  ⟨(c5_modifier_edge_trigger _ 0 rfl rfl).1,
   (c5_modifier_edge_trigger _ 0 rfl rfl).2.1,
   (c5_modifier_edge_trigger _ 0 rfl rfl).2.2.1⟩

/-- C10: a modifier KeyEvent with state Released arriving while that
modifier's slot is already Released emits the modifier's display glyph —
the emission test is only that the slot's previous state was Released, not
that the event is a press. -/
theorem c10_release_from_released_emits
    (st : DispatchState) (fg : Nat) (sc : Scancode) (idx : Fin 4)
    (hidx : modifier_index sc = some idx)
    (hprev : st.modifier_state idx = KeyState.Released)
    (hgate : some fg = st.input_window) :
    ∃ g, get_send_char sc = some g ∧
      (onEvent st fg (Event.Key sc KeyState.Released)).2 = [g] := by
  obtain ⟨g, hg⟩ : ∃ g, get_send_char sc = some g := by
    cases sc <;> first
      | exact ⟨_, rfl⟩
      | exact Option.noConfusion hidx
  refine ⟨g, hg, ?_⟩
  rw [onEvent_modifier st fg sc idx KeyState.Released hidx hgate]
  simp [hprev, hg]

/-- Witness for C10: a LeftShift release while the Shift slot is Released
emits the Shift glyph. -/
theorem c10_witness :
    ∃ g, get_send_char Scancode.LeftShift = some g ∧
      (onEvent ⟨⟨[], none⟩, some 0, fun _ => KeyState.Released⟩ 0
          (Event.Key Scancode.LeftShift KeyState.Released)).2 = [g] :=
  c10_release_from_released_emits _ 0 Scancode.LeftShift 0 rfl rfl rfl

/-- C7: a CharEvent processed while the target window has focus emits
exactly the decoded characters that are neither control nor whitespace
(errors standing as the replacement character): a decoded value that is
control or whitespace is discarded, any other decoded value is emitted. -/
theorem c7_char_control_whitespace_filter (st : DispatchState) (fg c : Nat)
    (hgate : some fg = st.input_window) :
    (onEvent st fg (Event.Char c)).2 =
      sentChars (drainFull (st.char_iter.push_u16 c)).1 ∧
    (∀ ch, ch ∈ (onEvent st fg (Event.Char c)).2 ↔
      ch ∈ (drainFull (st.char_iter.push_u16 c)).1.map
          (fun r => unwrap_or r REPLACEMENT_CHARACTER) ∧
        is_control ch = false ∧ is_whitespace ch = false) := by
  have h1 : (onEvent st fg (Event.Char c)).2 =
      sentChars (drainFull (st.char_iter.push_u16 c)).1 := by
    rw [onEvent_char st fg c hgate]
  refine ⟨h1, ?_⟩
  intro ch
  rw [h1]
  simp [sentChars, List.mem_filter]

/-- Witness for C7: with focus on the target, the letter 'A' (0x41) is
emitted while the tab character (0x09, whitespace) is not. -/
theorem c7_witness :
    some 0 = (⟨⟨[], none⟩, some 0, fun _ => KeyState.Released⟩ :
      DispatchState).input_window ∧
    0x41 ∈ (onEvent ⟨⟨[], none⟩, some 0, fun _ => KeyState.Released⟩ 0
      (Event.Char 0x41)).2 ∧
    0x09 ∉ (onEvent ⟨⟨[], none⟩, some 0, fun _ => KeyState.Released⟩ 0
      (Event.Char 0x09)).2 :=
  ⟨rfl,
   ((c7_char_control_whitespace_filter _ 0 0x41 rfl).2 0x41).mpr
     ⟨by decide, by decide, by decide⟩,
   fun hmem =>
     absurd (((c7_char_control_whitespace_filter _ 0 0x09 rfl).2 0x09).mp
       hmem).2.2 (by decide)⟩

/-- The characters one decode result contributes to the channel:
`unwrap_or(REPLACEMENT_CHARACTER)` then the control/whitespace filter. -/
def sentFor (r : Except DecodeUtf16Error Nat) : List Nat :=
  if !(is_control (unwrap_or r REPLACEMENT_CHARACTER)) &&
      !(is_whitespace (unwrap_or r REPLACEMENT_CHARACTER)) then
    [unwrap_or r REPLACEMENT_CHARACTER]
  else []

lemma sentChars_eq_bind (rs : List (Except DecodeUtf16Error Nat)) :
    sentChars rs = rs.flatMap sentFor := by
  induction rs with
  | nil => rfl
  | cons r rs ih =>
    simp only [sentChars, List.map_cons, List.filter_cons] at *
    by_cases h : (!(is_control (unwrap_or r REPLACEMENT_CHARACTER)) &&
        !(is_whitespace (unwrap_or r REPLACEMENT_CHARACTER))) = true
    · simp [h, sentFor, ih]
    · simp [h, sentFor, ih]

/-- C8: while the target window has focus, the characters a CharEvent sends
are exactly the per-result contributions of the drained decode results, and
every invalid result contributes exactly the replacement character U+FFFD —
it is neither silently dropped nor surfaced as an error. -/
theorem c8_invalid_maps_to_replacement (st : DispatchState) (fg c : Nat)
    (hgate : some fg = st.input_window) :
    (onEvent st fg (Event.Char c)).2 =
      (drainFull (st.char_iter.push_u16 c)).1.flatMap sentFor ∧
    (∀ e : DecodeUtf16Error, sentFor (Except.error e) = [REPLACEMENT_CHARACTER]) := by
  constructor
  · rw [onEvent_char st fg c hgate]
    exact sentChars_eq_bind _
  · intro e
    rfl

/-- Witness for C8: a standalone trailing surrogate (0xDC05) decodes to one
invalid result and the replacement character U+FFFD is emitted for it. -/
theorem c8_witness :
    some 0 = (⟨⟨[], none⟩, some 0, fun _ => KeyState.Released⟩ :
      DispatchState).input_window ∧
    (onEvent ⟨⟨[], none⟩, some 0, fun _ => KeyState.Released⟩ 0
        (Event.Char 0xDC05)).2 =
      (drainFull ((⟨[], none⟩ : BufferedUtf16Iterator).push_u16 0xDC05)).1.flatMap
        sentFor ∧
    sentFor (Except.error ⟨0xDC05⟩) = [REPLACEMENT_CHARACTER] :=
  ⟨rfl,
   (c8_invalid_maps_to_replacement
     ⟨⟨[], none⟩, some 0, fun _ => KeyState.Released⟩ 0 0xDC05 rfl).1,
   (c8_invalid_maps_to_replacement
     ⟨⟨[], none⟩, some 0, fun _ => KeyState.Released⟩ 0 0xDC05 rfl).2 ⟨0xDC05⟩⟩

/-- C9: one `deliver` gives every held sink exactly one write attempt for
the character, in order; failing sinks are removed within that operation,
succeeding sinks survive and receive the character regardless of other
sinks' failures.  Concretely, with sinks 1 (failing on 'x') and 2: deliver
of 'x' (0x78) removes sink 1 and reaches sink 2; a following deliver of 'y'
(0x79) reaches only the survivor. -/
theorem c9_deliver_prunes_failed_sinks :
    (∀ (sinks : List ViewerSink) (c : Nat),
      (deliver sinks c).2 = sinks.map (fun s => (s.id, write_message s c))) ∧
    (∀ (sinks : List ViewerSink) (c : Nat),
      (deliver sinks c).1 = sinks.filter (fun s => write_message s c)) ∧
    deliver [⟨1, [0x78]⟩, ⟨2, []⟩] 0x78 = ([⟨2, []⟩], [(1, false), (2, true)]) ∧
    deliver (deliver [⟨1, [0x78]⟩, ⟨2, []⟩] 0x78).1 0x79 =
      ([⟨2, []⟩], [(2, true)]) := by
  refine ⟨?_, ?_, by decide, by decide⟩
  · intro sinks c
    induction sinks with
    | nil => rfl
    | cons s rest ih => cases h : write_message s c <;> simp [deliver, h, ih]
  · intro sinks c
    induction sinks with
    | nil => rfl
    | cons s rest ih => cases h : write_message s c <;> simp [deliver, h, ih]

end Keydisp
